import Mathlib

/-!
Verification of the waveger2 backend (`backend/blueprints/billboard_api.py`)
against its natural-language specification.

The Python source is shallowly embedded:
* `replaceAll` models Python `str.replace(old, new)` (leftmost, non-overlapping,
  replace-all) on `List Char`.
* `AppleMusicService.standardize_artwork_url`, `search_song` and
  `enrich_chart_data` are modelled as pure functions; the key-value cache
  (flask-caching over Redis) is explicit state.  `cache.get` on the Python
  side returns `None` both for a missing key and for a stored `None`, which
  the embedding reflects via `pyCacheGet`.
* The `get_chart` request handler is a pure function of the request
  parameters, the cache state, the weekday, and an oracle for the upstream
  HTTP outcome; it returns the HTTP response, the new cache state and
  whether the upstream chart API was called.
-/

/-! ## Python `str.replace` for the artwork-URL placeholder -/

/-- The literal placeholder searched for by `standardize_artwork_url`
(line 103 of `billboard_api.py`). -/
def pat : List Char := ['{', 'w', '}', 'x', '{', 'h', '}', 'b', 'b', '.', 'j', 'p', 'g']

/-- The replacement `1000x1000bb.jpg`. -/
def rep : List Char := ['1', '0', '0', '0', 'x', '1', '0', '0', '0', 'b', 'b', '.', 'j', 'p', 'g']

/-- Python `s.replace(p, r)` for a nonempty pattern `p`: scan left to right,
replacing each (non-overlapping) occurrence of `p` by `r`. -/
def replaceAll (p r : List Char) (s : List Char) : List Char :=
  if h : p ≠ [] ∧ p.isPrefixOf s then
    r ++ replaceAll p r (s.drop p.length)
  else
    match s with
    | [] => []
    | c :: s' => c :: replaceAll p r s'
termination_by s.length
decreasing_by
  · have hpre : p <+: s := List.isPrefixOf_iff_prefix.mp h.2
    have hp : 0 < p.length := List.length_pos.mpr h.1
    have hle : p.length ≤ s.length := hpre.length_le
    simp only [List.length_drop]
    omega
  · simp

/-- Executable occurrence test: does `p` occur as a contiguous substring of `s`? -/
def hasOcc (p s : List Char) : Bool :=
  (List.range (s.length + 1)).any (fun i => p.isPrefixOf (s.drop i))

/-! ## `AppleMusicService.standardize_artwork_url` (lines 88-103) -/

/-- The function `replaceAll pat rep` lifted to `String`. -/
def stdStr (u : String) : String := ⟨replaceAll pat rep u.data⟩

/-- Python's falsy check plus replacement, for a `str` argument. -/
def stdPy (u : String) : String := if u.data.isEmpty then u else stdStr u

/-- Model of `standardize_artwork_url(url)`: `None` and `""` are falsy and returned
unchanged; otherwise the placeholder is replaced.  A Python `str`-or-`None`
value is modelled as `Option String`. -/
def standardize_artwork_url : Option String → Option String
  | none => none
  | some u => if u.data.isEmpty then some u else some (stdStr u)

/-! ## Data model: Apple Music values, songs, chart payloads

Python dict values are modelled structurally.  `Option` on a field encodes
presence or absence of the dict key; `AMVal.pyNone` is the Python `None`
value itself (which is distinct from key absence). -/

/-- The dict produced by `search_song` (or found in cached chart entries)
under the `"apple_music"` key: the `artwork_url` entry, if the key is
present, plus all other fields (opaque key/value pairs). -/
structure AMData where
  artwork_url : Option String
  rest : List (String × String)
deriving DecidableEq, Repr

/-- A Python value stored under `"apple_music"`: `None` or a dict. -/
inductive AMVal where
  | pyNone : AMVal
  | dict : AMData → AMVal
deriving DecidableEq, Repr

/-- Python truthiness of a dict: nonempty. -/
def AMData.truthy (d : AMData) : Bool := d.artwork_url.isSome || !d.rest.isEmpty

/-- Lines 265-266: `if "apple_music" in song and song["apple_music"] and
"artwork_url" in song["apple_music"]`, then standardize the artwork URL.
(The `"apple_music" in song` conjunct is handled at the `Song` level.) -/
def normalizeAM : AMVal → AMVal
  | .pyNone => .pyNone
  | .dict d =>
    if d.truthy && d.artwork_url.isSome then
      .dict { d with artwork_url := (d.artwork_url.map stdPy) }
    else
      .dict d

/-- A chart entry dict.  `title`/`name`/`artist` are `None`-or-absent-or-string
(collapsed to `Option String`, which is what `dict.get` observes);
`apple_music = none` means the key is absent, `some v` that it maps to `v`.
All other fields are opaque pairs in `rest`. -/
structure Song where
  title : Option String
  name : Option String
  artist : Option String
  apple_music : Option AMVal
  rest : List (String × String)
deriving DecidableEq, Repr

/-- Line 281: `s.get("title", s.get("name"))`. -/
def Song.lookupTitle (s : Song) : Option String :=
  match s.title with
  | some t => some t
  | none => s.name

/-- Lines 264-266 applied to one song. -/
def normalizeSong (s : Song) : Song :=
  { s with apple_music := s.apple_music.map normalizeAM }

/-- The `data["chart"]` sub-dict: chart date, entry list, other fields. -/
structure ChartObj where
  date : Option String
  entries : Option (List Song)
  rest : List (String × String)
deriving DecidableEq, Repr

/-- A chart payload dict (`new_data` / `cached_data` in `get_chart`). -/
structure ChartData where
  chart : Option ChartObj
  songs : Option (List Song)
  rest : List (String × String)
deriving DecidableEq, Repr

/-- Python truthiness: `not data` holds exactly for the empty dict. -/
def ChartData.falsy (d : ChartData) : Bool :=
  d.chart.isNone && d.songs.isNone && d.rest.isEmpty

/-- The chart date, `data.get("chart", dict()).get("date")` (lines 383-384). -/
def chartDate (d : ChartData) : Option String :=
  match d.chart with
  | some co => co.date
  | none => none

/-- First-match lookup in the opaque field list (Python dict access). -/
def restGet (kvs : List (String × String)) (k : String) : Option String :=
  (kvs.find? (fun kv => kv.1 = k)).map (fun kv => kv.2)

/-! ## `AppleMusicService.enrich_chart_data` (lines 240-296)

The Apple Music lookup performed by the worker pool is abstracted as a pure
oracle `lookup : Option String → Option String → AMVal` giving, for a
`(title, artist)` pair, the value `search_song` would return (`None` or a
result dict).  `executor.map` preserves input order, so the parallel lookup
is the positional map below. -/

/-- The body of `enrich_chart_data` acting on the selected song list:
first the normalization pass (lines 264-266), then the early return when
every song already has the `"apple_music"` key (lines 269-270), then the
lookup-and-attach pass over songs lacking the key (lines 273-291). -/
def enrichSongs (lookup : Option String → Option String → AMVal) (songs : List Song) : List Song :=
  let songs1 := songs.map normalizeSong
  if !songs1.isEmpty && songs1.all (fun s => s.apple_music.isSome) then
    songs1
  else
    let toProcess := songs1.filter (fun s => s.apple_music.isNone)
    if toProcess.isEmpty then
      songs1
    else
      songs1.map (fun s =>
        if s.apple_music.isNone then
          { s with apple_music := some (lookup s.lookupTitle s.artist) }
        else s)

/-- Model of `enrich_chart_data(data)`: locate the song list under
`data["chart"]["entries"]`, else `data["songs"]`, else return the payload
unchanged; the falsy (empty-dict) payload is also returned unchanged. -/
def enrich_chart_data (lookup : Option String → Option String → AMVal)
    (d : ChartData) : ChartData :=
  if d.falsy then d
  else
    match d.chart with
    | some co =>
      match co.entries with
      | some es => { d with chart := some { co with entries := some (enrichSongs lookup es) } }
      | none =>
        match d.songs with
        | some ss => { d with songs := some (enrichSongs lookup ss) }
        | none => d
    | none =>
      match d.songs with
      | some ss => { d with songs := some (enrichSongs lookup ss) }
      | none => d

/-- The snapshot's entry-list shape is unrecognized: neither
`chart.entries` nor `songs` is present. -/
def unrecShape (d : ChartData) : Bool :=
  (match d.chart with
   | some co => co.entries.isNone
   | none => true) && d.songs.isNone

/-- Every song at the recognized entry-list location already carries the
`"apple_music"` key (possibly with value `None`). -/
def allEnriched (d : ChartData) : Bool :=
  match d.chart with
  | some co =>
    match co.entries with
    | some es => es.all (fun s => s.apple_music.isSome)
    | none =>
      match d.songs with
      | some ss => ss.all (fun s => s.apple_music.isSome)
      | none => true
  | none =>
    match d.songs with
    | some ss => ss.all (fun s => s.apple_music.isSome)
    | none => true

/-- A song with the enrichment field removed (for frame statements). -/
def eraseAM (s : Song) : Song := { s with apple_music := none }

def c8lookup : Option String → Option String → AMVal := fun _ _ => AMVal.pyNone

def c8song : Song := ⟨some "Test Song", none, some "Test Artist", none, [("rank", "1")]⟩

def c8data : ChartData := ⟨some ⟨some "2025-04-08", some [c8song], []⟩, none, []⟩

/-! ## `AppleMusicService.search_song` (lines 105-238)

State: the `apple_music:search:*` cache namespace and the
`apple_music:token` cache key.  Stored search values are `AMVal` (the
result dict or the Python `None` sentinel) together with their TTL in
seconds.  `pyCacheGet` models flask-caching `cache.get`, which returns
`None` both for a missing key and for a stored `None` (as the repository's
own `test_null_values` test documents). -/

structure AMState where
  searchCache : String → Option (AMVal × Nat)
  token : Option String

/-- flask-caching `cache.get`: a miss is indistinguishable from a stored
`None`. -/
def pyCacheGet (c : String → Option (AMVal × Nat)) (k : String) : AMVal :=
  match c k with
  | some (v, _) => v
  | none => .pyNone

/-- Line 118: `f"apple_music:search:{title}:{artist}"`. -/
def searchKey (title artist : String) : String :=
  "apple_music:search:" ++ title ++ ":" ++ artist

def setSearch (st : AMState) (k : String) (v : AMVal) (ttl : Nat) : AMState :=
  { st with searchCache := fun k' => if k' = k then some (v, ttl) else st.searchCache k' }

/-- Upstream outcome oracle for one Apple Music search request. -/
inductive SearchOutcome where
  | noMatch : SearchOutcome
  | found : AMData → SearchOutcome
  | fail : String → SearchOutcome

structure SearchResult where
  result : AMVal
  state : AMState
  searchCalls : Nat
  tokenGens : Nat

/-- Lines 131-238: issue the search request (one outbound call), extract and
standardize the result, and cache it — 24h TTL for a result or the `None`
no-match sentinel, 300s for a failure. -/
def doSearch (st : AMState) (key : String) (up : SearchOutcome) (gens : Nat) : SearchResult :=
  match up with
  | .noMatch =>
    { result := .pyNone, state := setSearch st key .pyNone 86400,
      searchCalls := 1, tokenGens := gens }
  | .found raw =>
    let res : AMVal := .dict { raw with artwork_url := some (stdPy (raw.artwork_url.getD "")) }
    { result := res, state := setSearch st key res 86400,
      searchCalls := 1, tokenGens := gens }
  | .fail _ =>
    { result := .pyNone, state := setSearch st key .pyNone 300,
      searchCalls := 1, tokenGens := gens }

/-- Model of `search_song(title, artist)`.  `mint` is the token-generation oracle
(`some t`: JWT signing succeeds with token `t`; `none`: signing fails);
`up` is the outcome of the search HTTP request.  `searchCalls` counts
outbound search requests, `tokenGens` token-generation attempts. -/
def search_song (st : AMState) (title artist : String) (mint : Option String)
    (up : SearchOutcome) : SearchResult :=
  let key := searchKey title artist
  let cached := pyCacheGet st.searchCache key
  if cached ≠ .pyNone then
    { result := normalizeAM cached, state := st, searchCalls := 0, tokenGens := 0 }
  else
    match st.token with
    | some _ => doSearch st key up 0
    | none =>
      match mint with
      | some t => doSearch { st with token := some t } key up 1
      | none => { result := .pyNone, state := st, searchCalls := 0, tokenGens := 1 }

def c2State : AMState := { searchCache := fun _ => none, token := some "tok" }

def c2Title : String := "This Song Definitely Does Not Exist"

def c2Artist : String := "Nonexistent Artist"

/-! ## The `get_chart` request handler (lines 299-441)

The handler is a pure function of the request parameters, the weekday
(`isTuesday` models `datetime.now().weekday() == 1`), the chart-cache
state, and an oracle `Upstream` for the outcome of the (at most one)
upstream HTTP request, plus the Apple Music lookup oracle used by
enrichment.  The chart cache stores payloads with their TTL
(`none` = no expiry); the rate-limit flag stores its TTL when present. -/

def ONE_HOUR : Nat := 3600

def ONE_WEEK : Nat := 604800

def RATE_LIMIT_TIMEOUT : Nat := 300

/-- Line 325: `f"billboard:{chart_id}" + (f":{week}" if week else "")`. -/
def cacheKey (cid : String) (week : Option String) : String :=
  "billboard:" ++ cid ++ (match week with
                          | some w => ":" ++ w
                          | none => "")

structure BState where
  chart : String → Option (ChartData × Option Nat)
  rateLimited : Option Nat

def setChart (st : BState) (key : String) (v : ChartData) (ttl : Option Nat) : BState :=
  { st with chart := fun k => if k = key then some (v, ttl) else st.chart k }

/-- Outcome oracle for the one upstream chart request of a handler run. -/
inductive Upstream where
  | ok : ChartData → Upstream
  | okNonDict : Upstream
  | httpError : Nat → Upstream
  | transport : Bool → String → Upstream
deriving DecidableEq

structure RespBody where
  payload : Option ChartData
  cached : Bool
  note : Option String
  error : Option String
  status_code : Option Nat
deriving DecidableEq

structure HResp where
  status : Nat
  body : RespBody
deriving DecidableEq

structure GResult where
  resp : HResp
  state : BState
  calledUpstream : Bool

/-- Lines 341-342, 372-373, 390-391, 413-414, 426-427, 438-439: enrichment
runs only when `apple_music=true`. -/
def maybeEnrich (b : Bool) (lookup : Option String → Option String → AMVal)
    (d : ChartData) : ChartData :=
  if b then enrich_chart_data lookup d else d

/-- Truthiness of the `cached_data` variable (`None` or a dict). -/
def cdTruthyB (cd? : Option ChartData) : Bool :=
  match cd? with
  | none => false
  | some d => !d.falsy

/-- Lines 411-416, 424-429, 436-441: fall back to cached data if truthy,
else 503 error payload. -/
def errFallback (include_am : Bool) (lookup : Option String → Option String → AMVal)
    (st : BState) (cd? : Option ChartData) (msg : String) (sc : Option Nat) : GResult :=
  match cd? with
  | some cd =>
    if !cd.falsy then
      { resp := ⟨200, ⟨some (maybeEnrich include_am lookup cd), true,
          some (msg ++ ", serving cached data"), none, none⟩⟩,
        state := st, calledUpstream := true }
    else
      { resp := ⟨503, ⟨none, false, none, some msg, sc⟩⟩, state := st, calledUpstream := true }
  | none =>
    { resp := ⟨503, ⟨none, false, none, some msg, sc⟩⟩, state := st, calledUpstream := true }

/-- The `try`/`except` block of `get_chart` (lines 358-441): one upstream
request is made; on success the rate-limit flag is cleared, the payload is
enriched and cached (permanently for a historical week; for the current
chart, the Tuesday same-date check may re-cache the old snapshot for one
hour instead of caching the new one for one week); on failure the handler
falls back to the cache or returns 503, setting the rate-limit flag on a
429. -/
def handleFetch (cid : String) (week : Option String) (refresh include_am isTuesday : Bool)
    (lookup : Option String → Option String → AMVal) (st : BState) (up : Upstream) : GResult :=
  let key := cacheKey cid week
  let cd? := (st.chart key).map Prod.fst
  match up with
  | .httpError status =>
    let st1 := if status = 429 then { st with rateLimited := some RATE_LIMIT_TIMEOUT } else st
    let msg := if status = 429 then "API rate limit exceeded"
               else "API error: Status code " ++ toString status
    errFallback include_am lookup st1 cd? msg (some status)
  | .transport isTO m =>
    let et := if isTO then "Timeout" else "API error"
    errFallback include_am lookup st cd? (et ++ ": " ++ m) none
  | .okNonDict =>
    errFallback include_am lookup st cd? "Invalid response format" none
  | .ok nd =>
    match restGet nd.rest "error" with
    | some em => errFallback include_am lookup st cd? em none
    | none =>
      let st1 : BState := { st with rateLimited := none }
      let nd1 := maybeEnrich include_am lookup nd
      match week with
      | some _ =>
        { resp := ⟨200, ⟨some nd1, false, none, none, none⟩⟩,
          state := setChart st1 key nd1 none, calledUpstream := true }
      | none =>
        match cd? with
        | some cd =>
          if isTuesday && !cd.falsy && !refresh && (chartDate cd == chartDate nd1) then
            let cd1 := maybeEnrich include_am lookup cd
            { resp := ⟨200, ⟨some cd1, true, some "No new chart data yet", none, none⟩⟩,
              state := setChart st1 key cd1 (some ONE_HOUR), calledUpstream := true }
          else
            { resp := ⟨200, ⟨some nd1, false, none, none, none⟩⟩,
              state := setChart st1 key nd1 (some ONE_WEEK), calledUpstream := true }
        | none =>
          { resp := ⟨200, ⟨some nd1, false, none, none, none⟩⟩,
            state := setChart st1 key nd1 (some ONE_WEEK), calledUpstream := true }

/-- Model of `get_chart` (lines 299-441): decide between serving the cache (lines
339-346) and fetching upstream. -/
def get_chart (cid : String) (week : Option String) (refresh include_am isTuesday : Bool)
    (lookup : Option String → Option String → AMVal) (st : BState) (up : Upstream) : GResult :=
  let key := cacheKey cid week
  let cd? := (st.chart key).map Prod.fst
  let rl : Bool := st.rateLimited.isSome
  let need : Bool := refresh || !(cdTruthyB cd?) || (week.isNone && isTuesday && !rl)
  match cd? with
  | some cd =>
    if !need && !cd.falsy then
      let body := maybeEnrich include_am lookup cd
      let note : Option String :=
        if rl then some "API rate limited, serving cached data" else none
      { resp := ⟨200, ⟨some body, true, note, none, none⟩⟩,
        state := st, calledUpstream := false }
    else handleFetch cid week refresh include_am isTuesday lookup st up
  | none => handleFetch cid week refresh include_am isTuesday lookup st up

def isFailure : Upstream → Bool
  | .ok nd => (restGet nd.rest "error").isSome
  | .okNonDict => true
  | .httpError _ => true
  | .transport _ _ => true

/-- The error message string produced for each failing upstream outcome. -/
def failMsg : Upstream → String
  | .ok nd => (restGet nd.rest "error").getD "Invalid API response"
  | .okNonDict => "Invalid response format"
  | .httpError s => if s = 429 then "API rate limit exceeded"
                    else "API error: Status code " ++ toString s
  | .transport t m => (if t then "Timeout" else "API error") ++ ": " ++ m

/-- The state update performed by a failing upstream outcome (only a 429
touches the rate-limit flag). -/
def failState (st : BState) : Upstream → BState
  | .httpError s => if s = 429 then { st with rateLimited := some RATE_LIMIT_TIMEOUT } else st
  | _ => st

/-- The `status_code` field of the 503 body (only present for HTTP errors). -/
def failSC : Upstream → Option Nat
  | .httpError s => some s
  | _ => none

def lkNone : Option String → Option String → AMVal := fun _ _ => AMVal.pyNone

def cxSongA : Song := ⟨some "Old Song", none, some "Old Artist", some AMVal.pyNone, [("rank", "1")]⟩

def cxSongB : Song := ⟨some "New Song", none, some "New Artist", some AMVal.pyNone, [("rank", "1")]⟩

def cxA : ChartData := ⟨some ⟨some "2023-03-28", some [cxSongA], []⟩, none, []⟩

def cxB : ChartData := ⟨some ⟨some "2023-04-04", some [cxSongB], []⟩, none, []⟩

def cxBsame : ChartData := ⟨some ⟨some "2023-03-28", some [cxSongB], []⟩, none, []⟩

def c1St : BState :=
  ⟨fun k => if k = "billboard:hot-100" then some (cxA, some 604800) else none, some 300⟩

def c3St : BState :=
  ⟨fun k => if k = "billboard:hot-100:2023-01-07" then some (cxA, none) else none, none⟩

def c4St : BState :=
  ⟨fun k => if k = "billboard:hot-100" then some (cxA, some 3600) else none, none⟩

def cEmptySt : BState := ⟨fun _ => none, none⟩

/-! ## Lemmas and claim theorems -/

theorem hasOcc_eq_false_iff (p s : List Char) (hp : p ≠ []) :
    hasOcc p s = false ↔ ∀ i, ¬ p <+: s.drop i := by
  constructor
  · intro h i hpre
    have htrue : hasOcc p s = true := by
      unfold hasOcc
      rw [List.any_eq_true]
      by_cases hi : i < s.length + 1
      · exact ⟨i, List.mem_range.mpr hi, List.isPrefixOf_iff_prefix.mpr hpre⟩
      · exfalso
        push_neg at hi
        have hdrop : s.drop i = [] := List.drop_eq_nil_of_le (by omega)
        rw [hdrop] at hpre
        exact hp (List.prefix_nil.mp hpre)
    rw [h] at htrue
    exact Bool.false_ne_true htrue
  · intro h
    rw [Bool.eq_false_iff]
    intro hc
    unfold hasOcc at hc
    rw [List.any_eq_true] at hc
    obtain ⟨i, _, hip⟩ := hc
    exact h i (List.isPrefixOf_iff_prefix.mp hip)

/-- If `p` does not occur anywhere in `s`, `replaceAll` leaves `s` unchanged. -/
theorem replaceAll_of_no_occ (p r s : List Char) (h : ∀ i, ¬ p <+: s.drop i) :
    replaceAll p r s = s := by
  induction s with
  | nil =>
    rw [replaceAll]
    have hng : ¬ (p ≠ [] ∧ p.isPrefixOf ([] : List Char)) := by
      rintro ⟨hp, hpre⟩
      exact h 0 (by simpa using List.isPrefixOf_iff_prefix.mp hpre)
    rw [dif_neg hng]
  | cons c s' ih =>
    rw [replaceAll]
    have hng : ¬ (p ≠ [] ∧ p.isPrefixOf (c :: s')) := by
      rintro ⟨hp, hpre⟩
      exact h 0 (by simpa using List.isPrefixOf_iff_prefix.mp hpre)
    rw [dif_neg hng]
    have h' : ∀ i, ¬ p <+: s'.drop i := by
      intro i hpre
      exact h (i + 1) (by simpa [List.drop_succ_cons] using hpre)
    show c :: replaceAll p r s' = c :: s'
    rw [ih h']

/-- Head-exposed form of appending the replacement string. -/
theorem rep_append_cons (Y : List Char) :
    rep ++ Y = '1' :: (['0', '0', '0', 'x', '1', '0', '0', '0', 'b', 'b', '.', 'j', 'p', 'g'] ++ Y) := rfl

/-- A `'1'`-free prefix of the output of `replaceAll pat rep` is a prefix of
the input: copied characters at the front of the output are input characters,
and any pasted `rep` starts with `'1'`. -/
theorem prefix_of_replaceAll_aux (s : List Char) :
    ∀ q : List Char, (∀ c ∈ q, c ≠ '1') → q <+: replaceAll pat rep s → q <+: s := by
  induction s with
  | nil =>
    intro q hq hpre
    rw [replaceAll] at hpre
    have hng : ¬ (pat ≠ [] ∧ pat.isPrefixOf ([] : List Char)) := by
      rintro ⟨_, hp⟩
      have := List.isPrefixOf_iff_prefix.mp hp
      simp [pat] at this
    rw [dif_neg hng] at hpre
    exact hpre
  | cons c s' ih =>
    intro q hq hpre
    rw [replaceAll] at hpre
    by_cases hg : pat ≠ [] ∧ pat.isPrefixOf (c :: s')
    · rw [dif_pos hg, rep_append_cons] at hpre
      cases q with
      | nil => exact List.nil_prefix
      | cons a q' =>
        rw [List.cons_prefix_cons] at hpre
        exact absurd hpre.1 (hq a (by simp))
    · rw [dif_neg hg] at hpre
      have hpre' : q <+: c :: replaceAll pat rep s' := hpre
      cases q with
      | nil => exact List.nil_prefix
      | cons a q' =>
        rw [List.cons_prefix_cons] at hpre'
        have hq' : ∀ x ∈ q', x ≠ '1' := fun x hx => hq x (by simp [hx])
        have := ih q' hq' hpre'.2
        rw [List.cons_prefix_cons]
        exact ⟨hpre'.1, this⟩

theorem pat_not_prefix_drop_rep : ∀ i, i < 15 → ¬ pat <+: rep.drop i := by decide

theorem drop_rep_not_prefix_pat : ∀ i, i < 15 → rep.drop i ≠ [] → ¬ rep.drop i <+: pat := by decide

theorem pat_tail_one_free : ∀ c ∈ pat.drop 1, c ≠ '1' := by decide

/-- The output of `replaceAll pat rep` contains no occurrence of `pat`:
every copied stretch of the output was scanned and found pattern-free, no
pasted `rep` contains the pattern, and no occurrence can straddle a pasted
`rep` because `rep` contains no `'{'` and `pat` contains no `'1'`. -/
theorem replaceAll_no_occ_aux :
    ∀ n (s : List Char), s.length ≤ n → ∀ i, ¬ pat <+: (replaceAll pat rep s).drop i := by
  intro n
  induction n with
  | zero =>
    intro s hs i hpre
    have hnil : s = [] := List.length_eq_zero.mp (Nat.le_zero.mp hs)
    subst hnil
    rw [replaceAll] at hpre
    have hng : ¬ (pat ≠ [] ∧ pat.isPrefixOf ([] : List Char)) := by
      rintro ⟨_, hp⟩
      have := List.isPrefixOf_iff_prefix.mp hp
      simp [pat] at this
    rw [dif_neg hng] at hpre
    simp only [List.drop_nil] at hpre
    have := List.prefix_nil.mp hpre
    simp [pat] at this
  | succ n ihn =>
    intro s hs i hpre
    rw [replaceAll] at hpre
    by_cases hg : pat ≠ [] ∧ pat.isPrefixOf s
    · rw [dif_pos hg] at hpre
      have hps : pat <+: s := List.isPrefixOf_iff_prefix.mp hg.2
      have hlen : (s.drop pat.length).length ≤ n := by
        have h13 : pat.length = 13 := by decide
        have := hps.length_le
        simp only [List.length_drop]
        omega
      rw [List.drop_append_eq_append_drop] at hpre
      have hlen15 : rep.length = 15 := by decide
      rw [hlen15] at hpre
      by_cases hi : 15 ≤ i
      · have hrep : rep.drop i = [] := List.drop_eq_nil_of_le (by rw [hlen15]; omega)
        rw [hrep, List.nil_append] at hpre
        exact ihn (s.drop pat.length) hlen (i - 15) hpre
      · push_neg at hi
        have hzero : (replaceAll pat rep (s.drop pat.length)).drop (i - 15) =
            replaceAll pat rep (s.drop pat.length) := by
          have h0 : i - 15 = 0 := by omega
          rw [h0, List.drop_zero]
        rw [hzero] at hpre
        have htake := List.prefix_iff_eq_take.mp hpre
        rw [List.take_append_eq_append_take] at htake
        have hdlen : (rep.drop i).length = 15 - i := by rw [List.length_drop, hlen15]
        by_cases hle : pat.length ≤ (rep.drop i).length
        · have hz : pat.length - (rep.drop i).length = 0 := by omega
          rw [hz, List.take_zero, List.append_nil] at htake
          have : pat <+: rep.drop i := by
            rw [htake]
            exact List.take_prefix _ _
          exact pat_not_prefix_drop_rep i hi this
        · have hdne : rep.drop i ≠ [] := by
            intro hc
            rw [hc] at hdlen
            simp only [List.length_nil] at hdlen
            have h13 : pat.length = 13 := by decide
            rw [h13] at hle
            omega
          have : rep.drop i <+: pat := by
            have h1 : (rep.drop i).take pat.length = rep.drop i := by
              apply List.take_of_length_le
              omega
            rw [h1] at htake
            exact ⟨_, htake.symm⟩
          exact drop_rep_not_prefix_pat i hi hdne this
    · rw [dif_neg hg] at hpre
      cases s with
      | nil =>
        simp only [List.drop_nil] at hpre
        have := List.prefix_nil.mp hpre
        simp [pat] at this
      | cons c s' =>
        have hpre' : pat <+: List.drop i (c :: replaceAll pat rep s') := hpre
        have hlen' : s'.length ≤ n := by
          simp only [List.length_cons] at hs
          omega
        cases i with
        | succ j =>
          rw [List.drop_succ_cons] at hpre'
          exact ihn s' hlen' j hpre'
        | zero =>
          rw [List.drop_zero] at hpre'
          have hpat : pat = '{' :: pat.drop 1 := by decide
          rw [hpat, List.cons_prefix_cons] at hpre'
          have htail : pat.drop 1 <+: s' :=
            prefix_of_replaceAll_aux s' (pat.drop 1) pat_tail_one_free hpre'.2
          have hfull : pat <+: c :: s' := by
            rw [hpat, List.cons_prefix_cons]
            exact ⟨hpre'.1, htail⟩
          exact hg ⟨by decide, List.isPrefixOf_iff_prefix.mpr hfull⟩

theorem replaceAll_no_occ (s : List Char) :
    ∀ i, ¬ pat <+: (replaceAll pat rep s).drop i :=
  replaceAll_no_occ_aux s.length s (Nat.le_refl _)

/-- Idempotence of `replaceAll pat rep`. -/
theorem replaceAll_idem (s : List Char) :
    replaceAll pat rep (replaceAll pat rep s) = replaceAll pat rep s :=
  replaceAll_of_no_occ pat rep _ (replaceAll_no_occ s)

/-- Nonemptiness is preserved by `replaceAll` when the replacement is nonempty. -/
theorem replaceAll_ne_nil (p r : List Char) (c : Char) (s' : List Char) (hr : r ≠ []) :
    replaceAll p r (c :: s') ≠ [] := by
  rw [replaceAll]
  by_cases hg : p ≠ [] ∧ p.isPrefixOf (c :: s')
  · rw [dif_pos hg]
    exact fun hc => hr (List.append_eq_nil.mp hc).1
  · rw [dif_neg hg]
    simp

/-- A leading occurrence of the placeholder is replaced by `replaceAll pat rep`. -/
theorem replaceAll_cons_pat (v : List Char) :
    replaceAll pat rep (pat ++ v) = rep ++ replaceAll pat rep v := by
  rw [replaceAll]
  have hg : pat ≠ [] ∧ pat.isPrefixOf (pat ++ v) :=
    ⟨by decide, List.isPrefixOf_iff_prefix.mpr ⟨v, rfl⟩⟩
  rw [dif_pos hg, List.drop_left]

theorem stdStr_data (u : String) : (stdStr u).data = replaceAll pat rep u.data := rfl

theorem stdStr_idem (u : String) : stdStr (stdStr u) = stdStr u :=
  congrArg String.mk (replaceAll_idem u.data)

theorem stdStr_data_ne_nil (u : String) (hu : ¬ u.data.isEmpty) : ¬ (stdStr u).data.isEmpty := by
  rw [stdStr_data]
  cases hd : u.data with
  | nil => rw [hd] at hu; simp at hu
  | cons c s' =>
    have hne : rep ≠ [] := by decide
    simpa using replaceAll_ne_nil pat rep c s' hne

theorem stdPy_idem (u : String) : stdPy (stdPy u) = stdPy u := by
  unfold stdPy
  by_cases he : u.data.isEmpty
  · rw [if_pos he, if_pos he]
  · rw [if_neg he, if_neg (stdStr_data_ne_nil u he), stdStr_idem]

theorem standardize_some (u : String) :
    standardize_artwork_url (some u) = some (stdPy u) := by
  show (if u.data.isEmpty then some u else some (stdStr u)) = some (stdPy u)
  unfold stdPy
  by_cases he : u.data.isEmpty
  · rw [if_pos he, if_pos he]
  · rw [if_neg he, if_neg he]

/-! ## Enrichment lemmas -/

theorem normalizeAM_dict (d : AMData) :
    normalizeAM (.dict d) =
      if d.truthy && d.artwork_url.isSome then
        .dict { d with artwork_url := d.artwork_url.map stdPy }
      else .dict d := rfl

theorem isSome_of_not_isNone {A : Type} (o : Option A) (h : o.isNone ≠ true) :
    o.isSome = true := by cases o <;> simp_all

theorem isNone_of_not_isSome {A : Type} (o : Option A) (h : o.isSome ≠ true) :
    o.isNone = true := by cases o <;> simp_all

theorem normalizeAM_idem (v : AMVal) : normalizeAM (normalizeAM v) = normalizeAM v := by
  cases v with
  | pyNone => rfl
  | dict d =>
    rw [normalizeAM_dict]
    by_cases hg : d.truthy && d.artwork_url.isSome
    · rw [if_pos hg]
      have hart : d.artwork_url.isSome = true := (Bool.and_eq_true_iff.mp hg).2
      obtain ⟨u, hu⟩ := Option.isSome_iff_exists.mp hart
      rw [normalizeAM_dict]
      have hg' : (({ d with artwork_url := d.artwork_url.map stdPy } : AMData).truthy
          && ({ d with artwork_url := d.artwork_url.map stdPy } : AMData).artwork_url.isSome) = true := by
        unfold AMData.truthy
        rw [hu]
        simp
      rw [if_pos hg']
      rw [hu]
      simp [stdPy_idem]
    · rw [if_neg hg, normalizeAM_dict, if_neg hg]

theorem normalizeSong_idem (s : Song) : normalizeSong (normalizeSong s) = normalizeSong s := by
  unfold normalizeSong
  cases ha : s.apple_music with
  | none => simp
  | some v => simp [normalizeAM_idem]

theorem normalizeSong_isSome (s : Song) :
    (normalizeSong s).apple_music.isSome = s.apple_music.isSome := by
  unfold normalizeSong
  cases s.apple_music <;> simp

theorem eraseAM_normalizeSong (s : Song) : eraseAM (normalizeSong s) = eraseAM s := rfl

/-- After one pass of `enrichSongs` on a nonempty list, every song carries
the `"apple_music"` key. -/
theorem enrichSongs_all_some (lookup : Option String → Option String → AMVal)
    (songs : List Song) (hne : songs ≠ []) :
    ∀ s ∈ enrichSongs lookup songs, s.apple_music.isSome := by
  unfold enrichSongs
  by_cases hg : !(songs.map normalizeSong).isEmpty &&
      (songs.map normalizeSong).all (fun s => s.apple_music.isSome)
  · rw [if_pos hg]
    intro s hs
    exact List.all_eq_true.mp (Bool.and_eq_true_iff.mp hg).2 s hs
  · rw [if_neg hg]
    have hne1 : ¬ (songs.map normalizeSong).isEmpty := by
      simp [List.isEmpty_iff, hne]
    by_cases hp : ((songs.map normalizeSong).filter (fun s => s.apple_music.isNone)).isEmpty
    · exfalso
      apply hg
      rw [Bool.and_eq_true_iff]
      refine ⟨by simp [hne1], ?_⟩
      rw [List.all_eq_true]
      intro s hs
      by_contra hc
      have hmem : s ∈ (songs.map normalizeSong).filter (fun s => s.apple_music.isNone) := by
        rw [List.mem_filter]
        exact ⟨hs, isNone_of_not_isSome _ hc⟩
      rw [List.isEmpty_iff] at hp
      rw [hp] at hmem
      simp at hmem
    · rw [if_neg hp]
      intro s hs
      rw [List.mem_map] at hs
      obtain ⟨t, _, ht⟩ := hs
      by_cases hn : t.apple_music.isNone
      · rw [if_pos hn] at ht
        rw [← ht]
        rfl
      · rw [if_neg hn] at ht
        rw [← ht]
        exact isSome_of_not_isNone _ hn

theorem enrichSongs_nil (lookup : Option String → Option String → AMVal) :
    enrichSongs lookup [] = [] := rfl

theorem enrichSongs_length (lookup : Option String → Option String → AMVal)
    (songs : List Song) : (enrichSongs lookup songs).length = songs.length := by
  unfold enrichSongs
  by_cases hg : !(songs.map normalizeSong).isEmpty &&
      (songs.map normalizeSong).all (fun s => s.apple_music.isSome)
  · rw [if_pos hg, List.length_map]
  · rw [if_neg hg]
    by_cases hp : ((songs.map normalizeSong).filter (fun s => s.apple_music.isNone)).isEmpty
    · rw [if_pos hp, List.length_map]
    · rw [if_neg hp, List.length_map, List.length_map]

/-- Under an oracle whose results are already artwork-normalized (as
`search_song`'s are), every song in the output of `enrichSongs` is a fixed
point of the normalization pass. -/
theorem enrichSongs_fixed (lookup : Option String → Option String → AMVal)
    (hL : ∀ t a, normalizeAM (lookup t a) = lookup t a) (songs : List Song) :
    ∀ s ∈ enrichSongs lookup songs, normalizeSong s = s := by
  unfold enrichSongs
  by_cases hg : !(songs.map normalizeSong).isEmpty &&
      (songs.map normalizeSong).all (fun s => s.apple_music.isSome)
  · rw [if_pos hg]
    intro s hs
    rw [List.mem_map] at hs
    obtain ⟨t, _, ht⟩ := hs
    rw [← ht]
    exact normalizeSong_idem t
  · rw [if_neg hg]
    by_cases hp : ((songs.map normalizeSong).filter (fun s => s.apple_music.isNone)).isEmpty
    · rw [if_pos hp]
      intro s hs
      rw [List.mem_map] at hs
      obtain ⟨t, _, ht⟩ := hs
      rw [← ht]
      exact normalizeSong_idem t
    · rw [if_neg hp]
      intro s hs
      rw [List.mem_map] at hs
      obtain ⟨t1, ht1mem, ht1⟩ := hs
      rw [List.mem_map] at ht1mem
      obtain ⟨t0, _, ht0⟩ := ht1mem
      by_cases hn : t1.apple_music.isNone
      · rw [if_pos hn] at ht1
        rw [← ht1]
        unfold normalizeSong
        simp [hL]
      · rw [if_neg hn] at ht1
        rw [← ht1, ← ht0]
        exact normalizeSong_idem t0

/-- A nonempty song list that is already normalized and fully keyed is a
fixed point of `enrichSongs` (the early return on line 270 fires). -/
theorem enrichSongs_of_fixed (lookup : Option String → Option String → AMVal)
    (songs : List Song) (hne : ¬ songs.isEmpty = true)
    (hmap : songs.map normalizeSong = songs)
    (hall : songs.all (fun s => s.apple_music.isSome) = true) :
    enrichSongs lookup songs = songs := by
  have hguard : (!songs.isEmpty && songs.all (fun s => s.apple_music.isSome)) = true := by
    rw [Bool.and_eq_true_iff]
    refine ⟨?_, hall⟩
    cases hE : songs.isEmpty
    · rfl
    · exact absurd hE hne
  simp only [enrichSongs]
  rw [hmap, if_pos hguard]

/-- Applying the enrichment pass twice equals applying it once. -/
theorem enrichSongs_idem (lookup : Option String → Option String → AMVal)
    (hL : ∀ t a, normalizeAM (lookup t a) = lookup t a) (songs : List Song) :
    enrichSongs lookup (enrichSongs lookup songs) = enrichSongs lookup songs := by
  cases hs : songs with
  | nil => rw [enrichSongs_nil, enrichSongs_nil]
  | cons c cs =>
    have hfix : ∀ s ∈ enrichSongs lookup (c :: cs), normalizeSong s = s :=
      enrichSongs_fixed lookup hL (c :: cs)
    have hsome : ∀ s ∈ enrichSongs lookup (c :: cs), s.apple_music.isSome = true :=
      enrichSongs_all_some lookup (c :: cs) (List.cons_ne_nil c cs)
    have hlen : (enrichSongs lookup (c :: cs)).length = cs.length + 1 := by
      rw [enrichSongs_length]
      simp
    have hmap : (enrichSongs lookup (c :: cs)).map normalizeSong = enrichSongs lookup (c :: cs) := by
      have h1 : (enrichSongs lookup (c :: cs)).map normalizeSong =
          (enrichSongs lookup (c :: cs)).map id := List.map_congr_left hfix
      rw [h1, List.map_id]
    have hne : ¬ (enrichSongs lookup (c :: cs)).isEmpty = true := by
      rw [List.isEmpty_iff]
      intro hc
      rw [hc] at hlen
      simp at hlen
    exact enrichSongs_of_fixed lookup _ hne hmap (List.all_eq_true.mpr hsome)

/-- The pass `enrichSongs` only touches the `"apple_music"` field of each entry:
erasing that field commutes with enrichment. -/
theorem enrichSongs_eraseAM (lookup : Option String → Option String → AMVal)
    (songs : List Song) :
    (enrichSongs lookup songs).map eraseAM = songs.map eraseAM := by
  have hnorm : (songs.map normalizeSong).map eraseAM = songs.map eraseAM := by
    rw [List.map_map]
    exact List.map_congr_left (fun s _ => eraseAM_normalizeSong s)
  unfold enrichSongs
  by_cases hg : !(songs.map normalizeSong).isEmpty &&
      (songs.map normalizeSong).all (fun s => s.apple_music.isSome)
  · rw [if_pos hg, hnorm]
  · rw [if_neg hg]
    by_cases hp : ((songs.map normalizeSong).filter (fun s => s.apple_music.isNone)).isEmpty
    · rw [if_pos hp, hnorm]
    · rw [if_neg hp, List.map_map]
      have hstep : ∀ s ∈ songs.map normalizeSong,
          (eraseAM ∘ fun s => if s.apple_music.isNone = true then
            { s with apple_music := some (lookup s.lookupTitle s.artist) } else s) s
            = eraseAM s := by
        intro s _
        by_cases hn : s.apple_music.isNone
        · simp only [Function.comp_apply, if_pos hn]
          rfl
        · simp only [Function.comp_apply, if_neg hn]
      rw [List.map_congr_left hstep, hnorm]

/-- When every entry already carries the `"apple_music"` key, `enrichSongs`
performs no lookups: its result does not depend on the lookup oracle. -/
theorem enrichSongs_indep (lookup lookup' : Option String → Option String → AMVal)
    (songs : List Song) (hall : songs.all (fun s => s.apple_music.isSome) = true) :
    enrichSongs lookup songs = enrichSongs lookup' songs := by
  cases hs : songs with
  | nil => rw [enrichSongs_nil, enrichSongs_nil]
  | cons c cs =>
    have hall' : ((c :: cs).map normalizeSong).all (fun s => s.apple_music.isSome) = true := by
      rw [List.all_eq_true]
      intro s hs'
      rw [List.mem_map] at hs'
      obtain ⟨t, htmem, ht⟩ := hs'
      rw [← ht, normalizeSong_isSome]
      rw [hs] at hall
      exact List.all_eq_true.mp hall t htmem
    have hguard : (!((c :: cs).map normalizeSong).isEmpty &&
        ((c :: cs).map normalizeSong).all (fun s => s.apple_music.isSome)) = true := by
      rw [Bool.and_eq_true_iff]
      exact ⟨by simp, hall'⟩
    unfold enrichSongs
    rw [if_pos hguard, if_pos hguard]

/-! ## `enrich_chart_data` shape lemmas -/

theorem falsy_false_of_chart (d : ChartData) (co : ChartObj) (hc : d.chart = some co) :
    d.falsy = false := by
  unfold ChartData.falsy
  rw [hc]
  simp

theorem falsy_false_of_songs (d : ChartData) (ss : List Song) (hs : d.songs = some ss) :
    d.falsy = false := by
  unfold ChartData.falsy
  rw [hs]
  simp

/-- Branch equation: entries found under `data["chart"]["entries"]`. -/
theorem enrich_eq_chart (lookup : Option String → Option String → AMVal)
    (date : Option String) (es : List Song) (corest : List (String × String))
    (songs : Option (List Song)) (drest : List (String × String)) :
    enrich_chart_data lookup ⟨some ⟨date, some es, corest⟩, songs, drest⟩ =
      ⟨some ⟨date, some (enrichSongs lookup es), corest⟩, songs, drest⟩ := rfl

/-- Branch equation: no `chart` key, entries found under `data["songs"]`. -/
theorem enrich_eq_songs_nochart (lookup : Option String → Option String → AMVal)
    (ss : List Song) (drest : List (String × String)) :
    enrich_chart_data lookup ⟨none, some ss, drest⟩ =
      ⟨none, some (enrichSongs lookup ss), drest⟩ := rfl

/-- Branch equation: `chart` present without `entries`, entries under `data["songs"]`. -/
theorem enrich_eq_songs_chart (lookup : Option String → Option String → AMVal)
    (date : Option String) (corest : List (String × String))
    (ss : List Song) (drest : List (String × String)) :
    enrich_chart_data lookup ⟨some ⟨date, none, corest⟩, some ss, drest⟩ =
      ⟨some ⟨date, none, corest⟩, some (enrichSongs lookup ss), drest⟩ := rfl

/-- Unrecognized shape, no `chart` key and no `songs` key. -/
theorem enrich_eq_unrec_nochart (lookup : Option String → Option String → AMVal)
    (drest : List (String × String)) :
    enrich_chart_data lookup ⟨none, none, drest⟩ = ⟨none, none, drest⟩ := by
  unfold enrich_chart_data
  by_cases hf : (ChartData.mk none none drest).falsy
  · rw [if_pos hf]
  · rw [if_neg hf]

/-- Unrecognized shape, `chart` present but without `entries`, no `songs`. -/
theorem enrich_eq_unrec_chart (lookup : Option String → Option String → AMVal)
    (date : Option String) (corest : List (String × String))
    (drest : List (String × String)) :
    enrich_chart_data lookup ⟨some ⟨date, none, corest⟩, none, drest⟩ =
      ⟨some ⟨date, none, corest⟩, none, drest⟩ := rfl

/-! ## Claim theorems: standardization and enrichment -/

/-- C9: `standardize_artwork_url` is idempotent; a URL not containing the
literal placeholder (in particular one already carrying a concrete
resolution) is returned unchanged, as are `None` and the empty string; a
leading placeholder occurrence is rewritten to `1000x1000bb.jpg`. -/
theorem C9_standardize_artwork_url_idempotent_frame :
    (∀ u : Option String,
        standardize_artwork_url (standardize_artwork_url u) = standardize_artwork_url u)
    ∧ (∀ u : String, hasOcc pat u.data = false → standardize_artwork_url (some u) = some u)
    ∧ standardize_artwork_url none = none
    ∧ standardize_artwork_url (some "") = some ""
    ∧ (∀ v : List Char, replaceAll pat rep (pat ++ v) = rep ++ replaceAll pat rep v) := by
  refine ⟨?_, ?_, rfl, by decide, replaceAll_cons_pat⟩
  · intro u
    cases u with
    | none => rfl
    | some v => rw [standardize_some, standardize_some, stdPy_idem]
  · intro u hocc
    have h := (hasOcc_eq_false_iff pat u.data (by decide)).mp hocc
    show (if u.data.isEmpty then some u else some (stdStr u)) = some u
    by_cases hE : u.data.isEmpty
    · rw [if_pos hE]
    · rw [if_neg hE]
      exact congrArg some (congrArg String.mk (replaceAll_of_no_occ pat rep u.data h))

theorem C9_witness :
    hasOcc pat ("https://a/600x600bb.jpg" : String).data = false ∧
      standardize_artwork_url (some ("https://a/600x600bb.jpg" : String)) =
        some ("https://a/600x600bb.jpg" : String) :=
  ⟨by decide, C9_standardize_artwork_url_idempotent_frame.2.1 _ (by decide)⟩

/-- C8: `enrich_chart_data` is idempotent (for a lookup oracle returning
already-normalized results, as `search_song` does); a payload whose entries
all carry the `"apple_music"` key is never looked up again (the result is
oracle-independent); an unrecognized entry-list shape is returned
unchanged. -/
theorem C8_enrich_idempotent (lookup : Option String → Option String → AMVal)
    (d : ChartData) (hL : ∀ t a, normalizeAM (lookup t a) = lookup t a) :
    enrich_chart_data lookup (enrich_chart_data lookup d) = enrich_chart_data lookup d
    ∧ (∀ lookup', allEnriched d = true →
        enrich_chart_data lookup d = enrich_chart_data lookup' d)
    ∧ (unrecShape d = true → enrich_chart_data lookup d = d) := by
  obtain ⟨dc, dsongs, drest⟩ := d
  refine ⟨?_, ?_, ?_⟩
  · cases dc with
    | some co =>
      obtain ⟨date, ents, corest⟩ := co
      cases ents with
      | some es => rw [enrich_eq_chart, enrich_eq_chart, enrichSongs_idem lookup hL]
      | none =>
        cases dsongs with
        | some ss => rw [enrich_eq_songs_chart, enrich_eq_songs_chart, enrichSongs_idem lookup hL]
        | none => rw [enrich_eq_unrec_chart, enrich_eq_unrec_chart]
    | none =>
      cases dsongs with
      | some ss => rw [enrich_eq_songs_nochart, enrich_eq_songs_nochart, enrichSongs_idem lookup hL]
      | none => rw [enrich_eq_unrec_nochart, enrich_eq_unrec_nochart]
  · intro lookup' hall
    cases dc with
    | some co =>
      obtain ⟨date, ents, corest⟩ := co
      cases ents with
      | some es =>
        rw [enrich_eq_chart, enrich_eq_chart, enrichSongs_indep lookup lookup' es hall]
      | none =>
        cases dsongs with
        | some ss =>
          rw [enrich_eq_songs_chart, enrich_eq_songs_chart, enrichSongs_indep lookup lookup' ss hall]
        | none => rw [enrich_eq_unrec_chart, enrich_eq_unrec_chart]
    | none =>
      cases dsongs with
      | some ss =>
        rw [enrich_eq_songs_nochart, enrich_eq_songs_nochart, enrichSongs_indep lookup lookup' ss hall]
      | none => rw [enrich_eq_unrec_nochart, enrich_eq_unrec_nochart]
  · intro hun
    cases dc with
    | some co =>
      obtain ⟨date, ents, corest⟩ := co
      cases ents with
      | some es => exact absurd hun (by simp [unrecShape])
      | none =>
        cases dsongs with
        | some ss => exact absurd hun (by simp [unrecShape])
        | none => rw [enrich_eq_unrec_chart]
    | none =>
      cases dsongs with
      | some ss => exact absurd hun (by simp [unrecShape])
      | none => rw [enrich_eq_unrec_nochart]

theorem C8_witness :
    (∀ t a, normalizeAM (c8lookup t a) = c8lookup t a) ∧
      (enrich_chart_data c8lookup (enrich_chart_data c8lookup c8data) =
          enrich_chart_data c8lookup c8data
        ∧ (∀ lookup', allEnriched c8data = true →
            enrich_chart_data c8lookup c8data = enrich_chart_data lookup' c8data)
        ∧ (unrecShape c8data = true → enrich_chart_data c8lookup c8data = c8data)) :=
  ⟨fun _ _ => rfl, C8_enrich_idempotent c8lookup c8data (fun _ _ => rfl)⟩

/-- C10: on a recognized entry-list shape, `enrich_chart_data` preserves the
number and order of entries and every field of each entry other than the
`"apple_music"` enrichment field, and leaves all top-level payload fields
other than the entry list itself unchanged. -/
theorem C10_enrich_frame (lookup : Option String → Option String → AMVal) (d : ChartData) :
    (∀ date es corest, d.chart = some ⟨date, some es, corest⟩ →
        enrich_chart_data lookup d =
          ⟨some ⟨date, some (enrichSongs lookup es), corest⟩, d.songs, d.rest⟩
        ∧ (enrichSongs lookup es).length = es.length
        ∧ (enrichSongs lookup es).map eraseAM = es.map eraseAM)
    ∧ (∀ ss, (match d.chart with
              | some co => co.entries = none
              | none => True) → d.songs = some ss →
        enrich_chart_data lookup d = { d with songs := some (enrichSongs lookup ss) }
        ∧ (enrichSongs lookup ss).length = ss.length
        ∧ (enrichSongs lookup ss).map eraseAM = ss.map eraseAM) := by
  obtain ⟨dc, dsongs, drest⟩ := d
  constructor
  · intro date es corest hc
    simp only at hc
    subst hc
    exact ⟨enrich_eq_chart lookup date es corest dsongs drest,
      enrichSongs_length lookup es, enrichSongs_eraseAM lookup es⟩
  · intro ss hent hsongs
    simp only at hsongs
    subst hsongs
    cases dc with
    | none => exact ⟨enrich_eq_songs_nochart lookup ss drest,
        enrichSongs_length lookup ss, enrichSongs_eraseAM lookup ss⟩
    | some co =>
      obtain ⟨date, ents, corest⟩ := co
      simp only at hent
      subst hent
      exact ⟨enrich_eq_songs_chart lookup date corest ss drest,
        enrichSongs_length lookup ss, enrichSongs_eraseAM lookup ss⟩

theorem C10_witness :
    c8data.chart = some ⟨some "2025-04-08", some [c8song], []⟩ ∧
      (enrich_chart_data c8lookup c8data =
          ⟨some ⟨some "2025-04-08", some (enrichSongs c8lookup [c8song]), []⟩,
            c8data.songs, c8data.rest⟩
        ∧ (enrichSongs c8lookup [c8song]).length = ([c8song] : List Song).length
        ∧ (enrichSongs c8lookup [c8song]).map eraseAM = ([c8song] : List Song).map eraseAM) :=
  ⟨rfl, (C10_enrich_frame c8lookup c8data).1 (some "2025-04-08") [c8song] [] rfl⟩

/-- C2 (code bug): after a no-match lookup the `None` sentinel *is* cached
with the 24-hour TTL, but a repeated lookup cannot see it — flask-caching's
`cache.get` returns `None` for a missing key as well, so the guard
`if cached_result is not None` (line 121) treats the cached sentinel as a
miss and the second lookup issues another outbound search request instead
of zero. -/
theorem C2_negative_cache_miss :
    (search_song c2State c2Title c2Artist none .noMatch).result = .pyNone
    ∧ (search_song c2State c2Title c2Artist none .noMatch).state.searchCache
        (searchKey c2Title c2Artist) = some (.pyNone, 86400)
    ∧ (search_song (search_song c2State c2Title c2Artist none .noMatch).state
        c2Title c2Artist none .noMatch).searchCalls = 1
    ∧ (search_song (search_song c2State c2Title c2Artist none .noMatch).state
        c2Title c2Artist none .noMatch).result = .pyNone := by
  refine ⟨rfl, ?_, ?_, rfl⟩
  · show (if searchKey c2Title c2Artist = searchKey c2Title c2Artist then
        some ((AMVal.pyNone : AMVal), (86400 : Nat)) else none) = some (.pyNone, 86400)
    rw [if_pos rfl]
  · rfl

/-! ## Handler path lemmas -/

theorem setChart_get_same (st : BState) (k : String) (v : ChartData) (ttl : Option Nat) :
    (setChart st k v ttl).chart k = some (v, ttl) := by
  simp [setChart]

theorem setChart_rateLimited (st : BState) (k : String) (v : ChartData) (ttl : Option Nat) :
    (setChart st k v ttl).rateLimited = st.rateLimited := rfl

theorem errFallback_none_eq (am : Bool) (lk : Option String → Option String → AMVal)
    (st : BState) (msg : String) (sc : Option Nat) :
    errFallback am lk st none msg sc =
      ⟨⟨503, ⟨none, false, none, some msg, sc⟩⟩, st, true⟩ := rfl

theorem errFallback_some_eq (am : Bool) (lk : Option String → Option String → AMVal)
    (st : BState) (cd : ChartData) (msg : String) (sc : Option Nat) :
    errFallback am lk st (some cd) msg sc =
      if !cd.falsy then
        ⟨⟨200, ⟨some (maybeEnrich am lk cd), true, some (msg ++ ", serving cached data"),
          none, none⟩⟩, st, true⟩
      else
        ⟨⟨503, ⟨none, false, none, some msg, sc⟩⟩, st, true⟩ := rfl

theorem errFallback_cached (am : Bool) (lk : Option String → Option String → AMVal)
    (st : BState) (cd : ChartData) (msg : String) (sc : Option Nat)
    (hf : cd.falsy = false) :
    errFallback am lk st (some cd) msg sc =
      ⟨⟨200, ⟨some (maybeEnrich am lk cd), true, some (msg ++ ", serving cached data"),
        none, none⟩⟩, st, true⟩ := by
  rw [errFallback_some_eq, if_pos (by rw [hf]; rfl)]

theorem errFallback_uncached (am : Bool) (lk : Option String → Option String → AMVal)
    (st : BState) (cd? : Option ChartData) (msg : String) (sc : Option Nat)
    (h : cdTruthyB cd? = false) :
    errFallback am lk st cd? msg sc =
      ⟨⟨503, ⟨none, false, none, some msg, sc⟩⟩, st, true⟩ := by
  cases cd? with
  | none => rw [errFallback_none_eq]
  | some cd =>
    have h2 : (!cd.falsy) = false := h
    rw [errFallback_some_eq, if_neg (by rw [h2]; simp)]

theorem errFallback_state (am : Bool) (lk : Option String → Option String → AMVal)
    (st : BState) (cd? : Option ChartData) (msg : String) (sc : Option Nat) :
    (errFallback am lk st cd? msg sc).state = st := by
  cases cd? with
  | none => rfl
  | some cd =>
    rw [errFallback_some_eq]
    by_cases hf : (!cd.falsy) = true
    · rw [if_pos hf]
    · rw [if_neg hf]

theorem errFallback_called (am : Bool) (lk : Option String → Option String → AMVal)
    (st : BState) (cd? : Option ChartData) (msg : String) (sc : Option Nat) :
    (errFallback am lk st cd? msg sc).calledUpstream = true := by
  cases cd? with
  | none => rfl
  | some cd =>
    rw [errFallback_some_eq]
    by_cases hf : (!cd.falsy) = true
    · rw [if_pos hf]
    · rw [if_neg hf]

/-! Branch equations for `handleFetch`. -/

theorem handleFetch_http (cid : String) (week : Option String) (refresh am tue : Bool)
    (lk : Option String → Option String → AMVal) (st : BState) (s : Nat) :
    handleFetch cid week refresh am tue lk st (.httpError s) =
      errFallback am lk
        (if s = 429 then { st with rateLimited := some RATE_LIMIT_TIMEOUT } else st)
        ((st.chart (cacheKey cid week)).map Prod.fst)
        (if s = 429 then "API rate limit exceeded" else "API error: Status code " ++ toString s)
        (some s) := rfl

theorem handleFetch_transport (cid : String) (week : Option String) (refresh am tue : Bool)
    (lk : Option String → Option String → AMVal) (st : BState) (t : Bool) (m : String) :
    handleFetch cid week refresh am tue lk st (.transport t m) =
      errFallback am lk st ((st.chart (cacheKey cid week)).map Prod.fst)
        ((if t then "Timeout" else "API error") ++ ": " ++ m) none := rfl

theorem handleFetch_nondict (cid : String) (week : Option String) (refresh am tue : Bool)
    (lk : Option String → Option String → AMVal) (st : BState) :
    handleFetch cid week refresh am tue lk st .okNonDict =
      errFallback am lk st ((st.chart (cacheKey cid week)).map Prod.fst)
        "Invalid response format" none := rfl

theorem handleFetch_ok_err (cid : String) (week : Option String) (refresh am tue : Bool)
    (lk : Option String → Option String → AMVal) (st : BState) (nd : ChartData) (em : String)
    (he : restGet nd.rest "error" = some em) :
    handleFetch cid week refresh am tue lk st (.ok nd) =
      errFallback am lk st ((st.chart (cacheKey cid week)).map Prod.fst) em none := by
  simp only [handleFetch, he]

theorem handleFetch_ok_hist (cid w : String) (refresh am tue : Bool)
    (lk : Option String → Option String → AMVal) (st : BState) (nd : ChartData)
    (he : restGet nd.rest "error" = none) :
    handleFetch cid (some w) refresh am tue lk st (.ok nd) =
      ⟨⟨200, ⟨some (maybeEnrich am lk nd), false, none, none, none⟩⟩,
        setChart { st with rateLimited := none } (cacheKey cid (some w))
          (maybeEnrich am lk nd) none, true⟩ := by
  simp only [handleFetch, he]

theorem handleFetch_ok_current_nocache (cid : String) (refresh am tue : Bool)
    (lk : Option String → Option String → AMVal) (st : BState) (nd : ChartData)
    (he : restGet nd.rest "error" = none)
    (hc : st.chart (cacheKey cid none) = none) :
    handleFetch cid none refresh am tue lk st (.ok nd) =
      ⟨⟨200, ⟨some (maybeEnrich am lk nd), false, none, none, none⟩⟩,
        setChart { st with rateLimited := none } (cacheKey cid none)
          (maybeEnrich am lk nd) (some ONE_WEEK), true⟩ := by
  simp only [handleFetch, he, hc, Option.map_none']

theorem handleFetch_ok_current_fresh (cid : String) (refresh am tue : Bool)
    (lk : Option String → Option String → AMVal) (st : BState) (nd cd : ChartData)
    (ttl : Option Nat) (he : restGet nd.rest "error" = none)
    (hc : st.chart (cacheKey cid none) = some (cd, ttl))
    (hcond : (tue && !cd.falsy && !refresh &&
      (chartDate cd == chartDate (maybeEnrich am lk nd))) = false) :
    handleFetch cid none refresh am tue lk st (.ok nd) =
      ⟨⟨200, ⟨some (maybeEnrich am lk nd), false, none, none, none⟩⟩,
        setChart { st with rateLimited := none } (cacheKey cid none)
          (maybeEnrich am lk nd) (some ONE_WEEK), true⟩ := by
  simp only [handleFetch, he, hc, Option.map_some', hcond]
  rw [if_neg (by simp)]

theorem handleFetch_ok_current_stale (cid : String) (refresh am tue : Bool)
    (lk : Option String → Option String → AMVal) (st : BState) (nd cd : ChartData)
    (ttl : Option Nat) (he : restGet nd.rest "error" = none)
    (hc : st.chart (cacheKey cid none) = some (cd, ttl))
    (hcond : (tue && !cd.falsy && !refresh &&
      (chartDate cd == chartDate (maybeEnrich am lk nd))) = true) :
    handleFetch cid none refresh am tue lk st (.ok nd) =
      ⟨⟨200, ⟨some (maybeEnrich am lk cd), true, some "No new chart data yet", none, none⟩⟩,
        setChart { st with rateLimited := none } (cacheKey cid none)
          (maybeEnrich am lk cd) (some ONE_HOUR), true⟩ := by
  simp only [handleFetch, he, hc, Option.map_some', hcond]
  simp

/-- Every failing upstream outcome is routed to `errFallback` with the
corresponding message, state update and status code. -/
theorem handleFetch_failure (cid : String) (week : Option String)
    (refresh am tue : Bool) (lk : Option String → Option String → AMVal)
    (st : BState) (up : Upstream) (hfail : isFailure up = true) :
    handleFetch cid week refresh am tue lk st up =
      errFallback am lk (failState st up) ((st.chart (cacheKey cid week)).map Prod.fst)
        (failMsg up) (failSC up) := by
  cases up with
  | ok nd =>
    cases he : restGet nd.rest "error" with
    | none =>
      rw [isFailure, he] at hfail
      simp at hfail
    | some em =>
      rw [handleFetch_ok_err cid week refresh am tue lk st nd em he]
      simp only [failState, failMsg, failSC, he, Option.getD_some]
  | okNonDict => rw [handleFetch_nondict]; rfl
  | httpError s => rw [handleFetch_http]; rfl
  | transport t m => rw [handleFetch_transport]; rfl

theorem handleFetch_called (cid : String) (week : Option String)
    (refresh am tue : Bool) (lk : Option String → Option String → AMVal)
    (st : BState) (up : Upstream) :
    (handleFetch cid week refresh am tue lk st up).calledUpstream = true := by
  cases up with
  | ok nd =>
    cases he : restGet nd.rest "error" with
    | some em =>
      rw [handleFetch_ok_err cid week refresh am tue lk st nd em he]
      exact errFallback_called _ _ _ _ _ _
    | none =>
      cases week with
      | some w => rw [handleFetch_ok_hist cid w refresh am tue lk st nd he]
      | none =>
        cases hc : st.chart (cacheKey cid none) with
        | none => rw [handleFetch_ok_current_nocache cid refresh am tue lk st nd he hc]
        | some p =>
          obtain ⟨cd, ttl⟩ := p
          by_cases hcond : (tue && !cd.falsy && !refresh &&
              (chartDate cd == chartDate (maybeEnrich am lk nd))) = true
          · rw [handleFetch_ok_current_stale cid refresh am tue lk st nd cd ttl he hc hcond]
          · rw [handleFetch_ok_current_fresh cid refresh am tue lk st nd cd ttl he hc
              (Bool.eq_false_iff.mpr hcond)]
  | okNonDict =>
    rw [handleFetch_nondict]
    exact errFallback_called _ _ _ _ _ _
  | httpError s =>
    rw [handleFetch_http]
    exact errFallback_called _ _ _ _ _ _
  | transport t m =>
    rw [handleFetch_transport]
    exact errFallback_called _ _ _ _ _ _

/-- A successful fetch (2xx dict payload without an `"error"` key) always
clears the rate-limit flag (line 369), whatever caching branch follows. -/
theorem handleFetch_ok_clears_flag (cid : String) (week : Option String)
    (refresh am tue : Bool) (lk : Option String → Option String → AMVal)
    (st : BState) (nd : ChartData) (he : restGet nd.rest "error" = none) :
    (handleFetch cid week refresh am tue lk st (.ok nd)).state.rateLimited = none := by
  cases week with
  | some w =>
    rw [handleFetch_ok_hist cid w refresh am tue lk st nd he]
    rfl
  | none =>
    cases hc : st.chart (cacheKey cid none) with
    | none =>
      rw [handleFetch_ok_current_nocache cid refresh am tue lk st nd he hc]
      rfl
    | some p =>
      obtain ⟨cd, ttl⟩ := p
      by_cases hcond : (tue && !cd.falsy && !refresh &&
          (chartDate cd == chartDate (maybeEnrich am lk nd))) = true
      · rw [handleFetch_ok_current_stale cid refresh am tue lk st nd cd ttl he hc hcond]
        rfl
      · rw [handleFetch_ok_current_fresh cid refresh am tue lk st nd cd ttl he hc
          (Bool.eq_false_iff.mpr hcond)]
        rfl

/-! Dispatch equations for `get_chart`. -/

/-- The serve-from-cache branch (lines 339-346): taken when a truthy cached
payload exists, no refresh was requested, and the Tuesday-revalidation
condition does not fire. -/
theorem get_chart_serve (cid : String) (week : Option String) (am tue : Bool)
    (lk : Option String → Option String → AMVal) (st : BState) (up : Upstream)
    (cd : ChartData) (ttl : Option Nat)
    (hcd : st.chart (cacheKey cid week) = some (cd, ttl))
    (hf : cd.falsy = false)
    (hskip : (week.isNone && tue && !st.rateLimited.isSome) = false) :
    get_chart cid week false am tue lk st up =
      ⟨⟨200, ⟨some (maybeEnrich am lk cd), true,
        (if st.rateLimited.isSome then some "API rate limited, serving cached data" else none),
        none, none⟩⟩, st, false⟩ := by
  simp only [get_chart, hcd, Option.map_some', cdTruthyB, hf]
  rw [if_pos (by rw [hskip]; rfl)]

/-- The fetch branch, cache hit variant: taken whenever the
`need_api_call` disjunction holds. -/
theorem get_chart_fetch_cached (cid : String) (week : Option String) (refresh am tue : Bool)
    (lk : Option String → Option String → AMVal) (st : BState) (up : Upstream)
    (cd : ChartData) (ttl : Option Nat)
    (hcd : st.chart (cacheKey cid week) = some (cd, ttl))
    (hneed : (refresh || !(!cd.falsy) || (week.isNone && tue && !st.rateLimited.isSome)) = true) :
    get_chart cid week refresh am tue lk st up =
      handleFetch cid week refresh am tue lk st up := by
  simp only [get_chart, hcd, Option.map_some', cdTruthyB]
  rw [if_neg (by rw [hneed]; simp)]

/-- The fetch branch, cache miss variant. -/
theorem get_chart_fetch_nocache (cid : String) (week : Option String) (refresh am tue : Bool)
    (lk : Option String → Option String → AMVal) (st : BState) (up : Upstream)
    (hcd : st.chart (cacheKey cid week) = none) :
    get_chart cid week refresh am tue lk st up =
      handleFetch cid week refresh am tue lk st up := by
  simp only [get_chart, hcd, Option.map_none']

/-- A handler run that called upstream took the fetch path. -/
theorem get_chart_called_eq (cid : String) (week : Option String) (refresh am tue : Bool)
    (lk : Option String → Option String → AMVal) (st : BState) (up : Upstream)
    (hcall : (get_chart cid week refresh am tue lk st up).calledUpstream = true) :
    get_chart cid week refresh am tue lk st up =
      handleFetch cid week refresh am tue lk st up := by
  cases hcd : st.chart (cacheKey cid week) with
  | none => exact get_chart_fetch_nocache cid week refresh am tue lk st up hcd
  | some p =>
    obtain ⟨cd, ttl⟩ := p
    by_cases hneed : (refresh || !(!cd.falsy) ||
        (week.isNone && tue && !st.rateLimited.isSome)) = true
    · exact get_chart_fetch_cached cid week refresh am tue lk st up cd ttl hcd hneed
    · exfalso
      have hnf := Bool.eq_false_iff.mpr hneed
      rw [Bool.or_eq_false_iff, Bool.or_eq_false_iff] at hnf
      obtain ⟨⟨h1, h2⟩, h3⟩ := hnf
      rw [Bool.not_eq_false', Bool.not_eq_true'] at h2
      subst h1
      have hserve := get_chart_serve cid week am tue lk st up cd ttl hcd h2 h3
      rw [hserve] at hcall
      exact Bool.false_ne_true hcall

theorem enrich_chartDate (lk : Option String → Option String → AMVal) (d : ChartData) :
    chartDate (enrich_chart_data lk d) = chartDate d := by
  obtain ⟨dc, ds, dr⟩ := d
  cases dc with
  | some co =>
    obtain ⟨date, ents, corest⟩ := co
    cases ents with
    | some es => rw [enrich_eq_chart]; rfl
    | none =>
      cases ds with
      | some ss => rw [enrich_eq_songs_chart]; rfl
      | none => rw [enrich_eq_unrec_chart]
  | none =>
    cases ds with
    | some ss => rw [enrich_eq_songs_nochart]; rfl
    | none => rw [enrich_eq_unrec_nochart]

theorem maybeEnrich_chartDate (b : Bool) (lk : Option String → Option String → AMVal)
    (d : ChartData) : chartDate (maybeEnrich b lk d) = chartDate d := by
  cases b with
  | false => rfl
  | true =>
    show chartDate (enrich_chart_data lk d) = chartDate d
    exact enrich_chartDate lk d

/-! ## Claim theorems: the `get_chart` handler -/

/-- C1 (amended): while the rate-limited flag is set, a chart request with
`refresh=false` and a truthy cached snapshot issues zero upstream calls and
serves the cached snapshot with the rate-limit note — on any weekday and for
any `week` parameter; but a request with `refresh=true` still triggers an
upstream fetch (the flag only guards the Tuesday-revalidation disjunct of
`need_api_call`). -/
theorem C1_rate_limited_serves_cache (cid : String) (week : Option String) (am tue : Bool)
    (lk : Option String → Option String → AMVal) (st : BState) (up : Upstream)
    (cd : ChartData) (ttl : Option Nat) (t : Nat)
    (hrl : st.rateLimited = some t)
    (hcd : st.chart (cacheKey cid week) = some (cd, ttl))
    (hf : cd.falsy = false) :
    get_chart cid week false am tue lk st up =
      ⟨⟨200, ⟨some (maybeEnrich am lk cd), true,
        some "API rate limited, serving cached data", none, none⟩⟩, st, false⟩
    ∧ (get_chart cid week false am tue lk st up).calledUpstream = false
    ∧ (∀ up', (get_chart cid week true am tue lk st up').calledUpstream = true) := by
  have hskip : (week.isNone && tue && !st.rateLimited.isSome) = false := by
    rw [hrl]
    simp
  have h1 := get_chart_serve cid week am tue lk st up cd ttl hcd hf hskip
  refine ⟨?_, by rw [h1], ?_⟩
  · rw [h1, hrl]
    simp
  · intro up'
    rw [get_chart_fetch_cached cid week true am tue lk st up' cd ttl hcd (by simp)]
    exact handleFetch_called cid week true am tue lk st up'

/-- C1 counterexample input: the rate-limited flag is set and a cached
snapshot exists, yet a `refresh=true` request still calls upstream —
falsifying "no chart request triggers an upstream chart fetch ...
regardless of the refresh parameter". -/
theorem C1_counterexample :
    c1St.rateLimited = some 300
    ∧ c1St.chart (cacheKey "hot-100" none) = some (cxA, some 604800)
    ∧ (get_chart "hot-100" none true false false lkNone c1St (.httpError 500)).calledUpstream
        = true := ⟨rfl, rfl, rfl⟩

theorem C1_witness :
    c1St.rateLimited = some 300 ∧ c1St.chart (cacheKey "hot-100" none) = some (cxA, some 604800)
    ∧ cxA.falsy = false
    ∧ (get_chart "hot-100" none false false false lkNone c1St (.httpError 500) =
        ⟨⟨200, ⟨some (maybeEnrich false lkNone cxA), true,
          some "API rate limited, serving cached data", none, none⟩⟩, c1St, false⟩
      ∧ (get_chart "hot-100" none false false false lkNone c1St (.httpError 500)).calledUpstream
          = false
      ∧ (∀ up', (get_chart "hot-100" none true false false lkNone c1St up').calledUpstream
          = true)) :=
  ⟨rfl, rfl, rfl,
    C1_rate_limited_serves_cache "hot-100" none false false lkNone c1St (.httpError 500)
      cxA (some 604800) 300 rfl rfl rfl⟩

/-- C3 (amended): a cached historical snapshot is never replaced by a
request without `forceRefresh` (the handler serves the cache and leaves the
state untouched); but a `forceRefresh=true` request refetches and
unconditionally overwrites the entry — with no expiry — with the newly
fetched (possibly different) payload. -/
theorem C3_historical_cache_policy (cid w : String) (am tue : Bool)
    (lk : Option String → Option String → AMVal) (st : BState) (up : Upstream)
    (cd : ChartData) (ttl : Option Nat)
    (hcd : st.chart (cacheKey cid (some w)) = some (cd, ttl))
    (hf : cd.falsy = false) :
    (get_chart cid (some w) false am tue lk st up).state = st
    ∧ (get_chart cid (some w) false am tue lk st up).calledUpstream = false
    ∧ (∀ nd, restGet nd.rest "error" = none →
        (get_chart cid (some w) true am tue lk st (.ok nd)).state.chart (cacheKey cid (some w))
          = some (maybeEnrich am lk nd, none)
        ∧ (get_chart cid (some w) true am tue lk st (.ok nd)).resp.body.cached = false) := by
  have hskip : ((some w : Option String).isNone && tue && !st.rateLimited.isSome) = false := by
    simp
  have h1 := get_chart_serve cid (some w) am tue lk st up cd ttl hcd hf hskip
  refine ⟨by rw [h1], by rw [h1], ?_⟩
  intro nd he
  rw [get_chart_fetch_cached cid (some w) true am tue lk st (.ok nd) cd ttl hcd (by simp),
    handleFetch_ok_hist cid w true am tue lk st nd he]
  exact ⟨setChart_get_same _ _ _ _, rfl⟩

/-- C3 counterexample input: a cached historical snapshot plus a
`refresh=true` request whose upstream response differs — the cache entry is
replaced with the different payload, falsifying "no subsequent request ...
replaces that cache entry with data different from what was stored". -/
theorem C3_counterexample :
    c3St.chart "billboard:hot-100:2023-01-07" = some (cxA, none)
    ∧ (get_chart "hot-100" (some "2023-01-07") true false false lkNone c3St
        (.ok cxB)).state.chart "billboard:hot-100:2023-01-07" = some (cxB, none)
    ∧ cxB ≠ cxA := by
  refine ⟨rfl, rfl, by decide⟩

theorem C3_witness :
    c3St.chart (cacheKey "hot-100" (some "2023-01-07")) = some (cxA, none)
    ∧ cxA.falsy = false
    ∧ ((get_chart "hot-100" (some "2023-01-07") false false false lkNone c3St
          (.httpError 500)).state = c3St
      ∧ (get_chart "hot-100" (some "2023-01-07") false false false lkNone c3St
          (.httpError 500)).calledUpstream = false
      ∧ (∀ nd, restGet nd.rest "error" = none →
          (get_chart "hot-100" (some "2023-01-07") true false false lkNone c3St
            (.ok nd)).state.chart (cacheKey "hot-100" (some "2023-01-07"))
              = some (maybeEnrich false lkNone nd, none)
          ∧ (get_chart "hot-100" (some "2023-01-07") true false false lkNone c3St
              (.ok nd)).resp.body.cached = false)) :=
  ⟨rfl, rfl,
    C3_historical_cache_policy "hot-100" "2023-01-07" false false lkNone c3St
      (.httpError 500) cxA none rfl rfl⟩

/-- C6: a historical request with a truthy cached snapshot and
`forceRefresh=false` serves from cache: zero upstream calls, the state is
untouched, a repeated identical request returns the identical response, and
the response is marked `cached:true` with the cached snapshot as payload. -/
theorem C6_historical_serve_cache (cid w : String) (am tue : Bool)
    (lk : Option String → Option String → AMVal) (st : BState) (up up' : Upstream)
    (cd : ChartData) (ttl : Option Nat)
    (hcd : st.chart (cacheKey cid (some w)) = some (cd, ttl))
    (hf : cd.falsy = false) :
    (get_chart cid (some w) false am tue lk st up).calledUpstream = false
    ∧ (get_chart cid (some w) false am tue lk st up).state = st
    ∧ get_chart cid (some w) false am tue lk
        ((get_chart cid (some w) false am tue lk st up).state) up'
        = get_chart cid (some w) false am tue lk st up
    ∧ (get_chart cid (some w) false am tue lk st up).resp.body.cached = true
    ∧ (get_chart cid (some w) false am tue lk st up).resp.body.payload
        = some (maybeEnrich am lk cd) := by
  have hskip : ((some w : Option String).isNone && tue && !st.rateLimited.isSome) = false := by
    simp
  have h1 := get_chart_serve cid (some w) am tue lk st up cd ttl hcd hf hskip
  have h2 := get_chart_serve cid (some w) am tue lk st up' cd ttl hcd hf hskip
  refine ⟨by rw [h1], by rw [h1], ?_, by rw [h1], by rw [h1]⟩
  rw [h1]
  exact h2

theorem C6_witness :
    c3St.chart (cacheKey "hot-100" (some "2023-01-07")) = some (cxA, none)
    ∧ cxA.falsy = false
    ∧ ((get_chart "hot-100" (some "2023-01-07") false false false lkNone c3St
          (.ok cxB)).calledUpstream = false
      ∧ (get_chart "hot-100" (some "2023-01-07") false false false lkNone c3St
          (.ok cxB)).state = c3St
      ∧ get_chart "hot-100" (some "2023-01-07") false false false lkNone
          ((get_chart "hot-100" (some "2023-01-07") false false false lkNone c3St
            (.ok cxB)).state) (.httpError 500)
          = get_chart "hot-100" (some "2023-01-07") false false false lkNone c3St (.ok cxB)
      ∧ (get_chart "hot-100" (some "2023-01-07") false false false lkNone c3St
          (.ok cxB)).resp.body.cached = true
      ∧ (get_chart "hot-100" (some "2023-01-07") false false false lkNone c3St
          (.ok cxB)).resp.body.payload = some (maybeEnrich false lkNone cxA)) :=
  ⟨rfl, rfl,
    C6_historical_serve_cache "hot-100" "2023-01-07" false false lkNone c3St
      (.ok cxB) (.httpError 500) cxA none rfl rfl⟩

/-- C4 (amended): on the designated refresh day, for a current-chart request
*without* `refresh` whose upstream fetch succeeds: if the new chart date
equals the cached snapshot's date, the old snapshot is re-cached with the
one-hour TTL and returned `cached:true` with note `"No new chart data yet"`;
if the dates differ, or no truthy prior cache existed, the new snapshot is
cached with the one-week TTL and returned `cached:false`.  (A `refresh=true`
request skips the same-date check entirely — see the counterexample.) -/
theorem C4_refresh_day_same_date (cid : String) (am : Bool)
    (lk : Option String → Option String → AMVal) (st : BState) (nd : ChartData)
    (he : restGet nd.rest "error" = none) (hrl : st.rateLimited = none) :
    (∀ cd ttl, st.chart (cacheKey cid none) = some (cd, ttl) → cd.falsy = false →
      (chartDate cd = chartDate nd →
        get_chart cid none false am true lk st (.ok nd) =
          ⟨⟨200, ⟨some (maybeEnrich am lk cd), true, some "No new chart data yet", none, none⟩⟩,
            setChart { st with rateLimited := none } (cacheKey cid none)
              (maybeEnrich am lk cd) (some ONE_HOUR), true⟩)
      ∧ (chartDate cd ≠ chartDate nd →
        get_chart cid none false am true lk st (.ok nd) =
          ⟨⟨200, ⟨some (maybeEnrich am lk nd), false, none, none, none⟩⟩,
            setChart { st with rateLimited := none } (cacheKey cid none)
              (maybeEnrich am lk nd) (some ONE_WEEK), true⟩))
    ∧ (st.chart (cacheKey cid none) = none →
        get_chart cid none false am true lk st (.ok nd) =
          ⟨⟨200, ⟨some (maybeEnrich am lk nd), false, none, none, none⟩⟩,
            setChart { st with rateLimited := none } (cacheKey cid none)
              (maybeEnrich am lk nd) (some ONE_WEEK), true⟩) := by
  constructor
  · intro cd ttl hcd hf
    have hneed : (false || !(!cd.falsy) ||
        ((none : Option String).isNone && true && !st.rateLimited.isSome)) = true := by
      rw [hf, hrl]
      rfl
    have hfetch := get_chart_fetch_cached cid none false am true lk st (.ok nd) cd ttl hcd hneed
    constructor
    · intro hdate
      have hcond : (true && !cd.falsy && !false &&
          (chartDate cd == chartDate (maybeEnrich am lk nd))) = true := by
        rw [hf, maybeEnrich_chartDate, ← hdate]
        simp
      rw [hfetch, handleFetch_ok_current_stale cid false am true lk st nd cd ttl he hcd hcond]
    · intro hdate
      have hcond : (true && !cd.falsy && !false &&
          (chartDate cd == chartDate (maybeEnrich am lk nd))) = false := by
        rw [hf, maybeEnrich_chartDate, beq_eq_false_iff_ne.mpr hdate]
        rfl
      rw [hfetch, handleFetch_ok_current_fresh cid false am true lk st nd cd ttl he hcd hcond]
  · intro hcd
    rw [get_chart_fetch_nocache cid none false am true lk st (.ok nd) hcd,
      handleFetch_ok_current_nocache cid false am true lk st nd he hcd]

/-- C4 counterexample input: on Tuesday with `refresh=true`, a successful
upstream fetch whose date equals the cached date is *not* treated as
"no new chart data yet": the new payload is cached for one week and returned
`cached:false` with no note — falsifying the claim as stated for every
current-chart request. -/
theorem C4_counterexample :
    c4St.chart "billboard:hot-100" = some (cxA, some 3600)
    ∧ chartDate cxBsame = chartDate cxA
    ∧ (get_chart "hot-100" none true false true lkNone c4St (.ok cxBsame)).resp.body.cached
        = false
    ∧ (get_chart "hot-100" none true false true lkNone c4St (.ok cxBsame)).resp.body.note
        = none
    ∧ (get_chart "hot-100" none true false true lkNone c4St
        (.ok cxBsame)).state.chart "billboard:hot-100" = some (cxBsame, some ONE_WEEK) :=
  ⟨rfl, rfl, rfl, rfl, rfl⟩

theorem C4_witness :
    restGet cxBsame.rest "error" = none ∧ c4St.rateLimited = none
    ∧ c4St.chart (cacheKey "hot-100" none) = some (cxA, some 3600)
    ∧ cxA.falsy = false ∧ chartDate cxA = chartDate cxBsame
    ∧ get_chart "hot-100" none false false true lkNone c4St (.ok cxBsame) =
        ⟨⟨200, ⟨some (maybeEnrich false lkNone cxA), true, some "No new chart data yet",
          none, none⟩⟩,
          setChart { c4St with rateLimited := none } (cacheKey "hot-100" none)
            (maybeEnrich false lkNone cxA) (some ONE_HOUR), true⟩ :=
  ⟨rfl, rfl, rfl, rfl, rfl,
    (((C4_refresh_day_same_date "hot-100" false lkNone c4St cxBsame rfl rfl).1
      cxA (some 3600) rfl rfl).1 rfl)⟩

/-- C5: whenever the upstream fetch fails (HTTP error, transport error,
timeout, non-dict payload, or error-shaped payload): with a truthy cached
snapshot the handler answers 200, `cached:true`, payload = the (possibly
enriched) cached snapshot, and a note naming the error and
`", serving cached data"`; without one it answers 503 with an `error` body,
`cached:false`, and the HTTP status code when the failure was an HTTP
error. -/
theorem C5_fetch_failure_fallback (cid : String) (week : Option String)
    (refresh am tue : Bool) (lk : Option String → Option String → AMVal)
    (st : BState) (up : Upstream)
    (hfail : isFailure up = true)
    (hcall : (get_chart cid week refresh am tue lk st up).calledUpstream = true) :
    (∀ cd ttl, st.chart (cacheKey cid week) = some (cd, ttl) → cd.falsy = false →
      get_chart cid week refresh am tue lk st up =
        ⟨⟨200, ⟨some (maybeEnrich am lk cd), true,
          some (failMsg up ++ ", serving cached data"), none, none⟩⟩,
          failState st up, true⟩)
    ∧ (cdTruthyB ((st.chart (cacheKey cid week)).map Prod.fst) = false →
      get_chart cid week refresh am tue lk st up =
        ⟨⟨503, ⟨none, false, none, some (failMsg up), failSC up⟩⟩,
          failState st up, true⟩) := by
  have heq := get_chart_called_eq cid week refresh am tue lk st up hcall
  have hff := handleFetch_failure cid week refresh am tue lk st up hfail
  constructor
  · intro cd ttl hcd hf
    rw [heq, hff, hcd]
    exact errFallback_cached am lk (failState st up) cd (failMsg up) (failSC up) hf
  · intro hnc
    rw [heq, hff]
    exact errFallback_uncached am lk (failState st up) _ (failMsg up) (failSC up) hnc

theorem C5_witness :
    isFailure (.httpError 500) = true
    ∧ (get_chart "hot-100" none true false false lkNone c4St
        (.httpError 500)).calledUpstream = true
    ∧ ((∀ cd ttl, c4St.chart (cacheKey "hot-100" none) = some (cd, ttl) → cd.falsy = false →
        get_chart "hot-100" none true false false lkNone c4St (.httpError 500) =
          ⟨⟨200, ⟨some (maybeEnrich false lkNone cd), true,
            some (failMsg (.httpError 500) ++ ", serving cached data"), none, none⟩⟩,
            failState c4St (.httpError 500), true⟩)
      ∧ (cdTruthyB ((c4St.chart (cacheKey "hot-100" none)).map Prod.fst) = false →
        get_chart "hot-100" none true false false lkNone c4St (.httpError 500) =
          ⟨⟨503, ⟨none, false, none, some (failMsg (.httpError 500)),
            failSC (.httpError 500)⟩⟩, failState c4St (.httpError 500), true⟩)) :=
  ⟨rfl, rfl,
    C5_fetch_failure_fallback "hot-100" none true false false lkNone c4St
      (.httpError 500) rfl rfl⟩

/-- C7: an upstream HTTP 429 (whenever a fetch actually happens) sets the
rate-limited flag with the five-minute TTL and is handled by the failure
path (cache fallback / 503); a successful fetch (2xx dict payload without
an error key) always deletes the flag. -/
theorem C7_rate_limit_circuit_breaker (cid : String) (week : Option String)
    (refresh am tue : Bool) (lk : Option String → Option String → AMVal) (st : BState) :
    ((get_chart cid week refresh am tue lk st (.httpError 429)).calledUpstream = true →
      (get_chart cid week refresh am tue lk st (.httpError 429)).state.rateLimited
          = some RATE_LIMIT_TIMEOUT
      ∧ get_chart cid week refresh am tue lk st (.httpError 429) =
          errFallback am lk { st with rateLimited := some RATE_LIMIT_TIMEOUT }
            ((st.chart (cacheKey cid week)).map Prod.fst)
            "API rate limit exceeded" (some 429))
    ∧ (∀ nd, restGet nd.rest "error" = none →
        (get_chart cid week refresh am tue lk st (.ok nd)).calledUpstream = true →
        (get_chart cid week refresh am tue lk st (.ok nd)).state.rateLimited = none) := by
  constructor
  · intro hcall
    have heq := get_chart_called_eq cid week refresh am tue lk st (.httpError 429) hcall
    have hff := handleFetch_failure cid week refresh am tue lk st (.httpError 429) rfl
    have hstate : failState st (.httpError 429) =
        { st with rateLimited := some RATE_LIMIT_TIMEOUT } := rfl
    have hmsg : failMsg (.httpError 429) = "API rate limit exceeded" := rfl
    have hsc : failSC (.httpError 429) = some 429 := rfl
    rw [heq, hff, hstate, hmsg, hsc]
    exact ⟨by rw [errFallback_state], rfl⟩
  · intro nd he hcall
    rw [get_chart_called_eq cid week refresh am tue lk st (.ok nd) hcall]
    exact handleFetch_ok_clears_flag cid week refresh am tue lk st nd he

theorem C7_witness :
    ((get_chart "hot-100" none true false false lkNone c4St
        (.httpError 429)).calledUpstream = true →
      (get_chart "hot-100" none true false false lkNone c4St
        (.httpError 429)).state.rateLimited = some RATE_LIMIT_TIMEOUT
      ∧ get_chart "hot-100" none true false false lkNone c4St (.httpError 429) =
          errFallback false lkNone { c4St with rateLimited := some RATE_LIMIT_TIMEOUT }
            ((c4St.chart (cacheKey "hot-100" none)).map Prod.fst)
            "API rate limit exceeded" (some 429))
    ∧ (∀ nd, restGet nd.rest "error" = none →
        (get_chart "hot-100" none true false false lkNone c4St (.ok nd)).calledUpstream = true →
        (get_chart "hot-100" none true false false lkNone c4St (.ok nd)).state.rateLimited
          = none) :=
  C7_rate_limit_circuit_breaker "hot-100" none true false false lkNone c4St
